import Mathlib

/-!
Verification development for the embedding-backed recommendation engine of
this repository (`ml/cache.py`, `ml/recommendation_engine.py`, `ml/search.py`,
`ml/settings.py`, `ml/ui.py`).

The Python code is shallowly embedded: Python dicts become association lists
with first-occurrence lookup and in-place overwrite, pandas dataframes become
lists of `Row` records, the embedding provider becomes an explicit function
(optionally failing, to model raised exceptions), the FAISS vectorstore
becomes the list of `(text, vector, metadata)` triples that
`FAISS.from_embeddings` receives, and the FAISS similarity queries become an
opaque search function constrained only by the contract that it returns
entries of the store.  Streamlit `st.cache_resource` memoisation and the
on-disk cache/index files become explicit fields of an `MLState` record.
-/

namespace Spec2Proof

/-! ## Python dictionaries as association lists -/

/-- First-occurrence lookup: the association-list reading of `d[k]` /
`d.get(k)` on a Python dict. -/
def alookup {κ ν : Type} [DecidableEq κ] : List (κ × ν) → κ → Option ν
  | [], _ => none
  | p :: rest, k => if p.1 = k then some p.2 else alookup rest k

/-- Python `k in d`. -/
def amem {κ ν : Type} [DecidableEq κ] (m : List (κ × ν)) (k : κ) : Bool :=
  (alookup m k).isSome

/-- Python `d[k] = v`: overwrite the first entry for `k` in place, or append a
new entry at the end (Python dicts keep insertion order). -/
def ainsert {κ ν : Type} [DecidableEq κ] : List (κ × ν) → κ → ν → List (κ × ν)
  | [], k, v => [(k, v)]
  | p :: rest, k, v => if p.1 = k then (k, v) :: rest else p :: ainsert rest k v

@[simp] theorem alookup_nil {κ ν : Type} [DecidableEq κ] (k : κ) :
    alookup ([] : List (κ × ν)) k = none := rfl

@[simp] theorem alookup_cons {κ ν : Type} [DecidableEq κ] (p : κ × ν) (rest : List (κ × ν))
    (k : κ) : alookup (p :: rest) k = if p.1 = k then some p.2 else alookup rest k := rfl

@[simp] theorem alookup_ainsert_self {κ ν : Type} [DecidableEq κ]
    (m : List (κ × ν)) (k : κ) (v : ν) : alookup (ainsert m k v) k = some v := by
  induction m with
  | nil => simp [ainsert]
  | cons p rest ih =>
    by_cases h : p.1 = k
    · simp [ainsert, h]
    · simp [ainsert, h, ih]

theorem alookup_ainsert_ne {κ ν : Type} [DecidableEq κ]
    (m : List (κ × ν)) (k k' : κ) (v : ν) (h : k' ≠ k) :
    alookup (ainsert m k' v) k = alookup m k := by
  induction m with
  | nil => simp [ainsert, h]
  | cons p rest ih =>
    by_cases hp : p.1 = k'
    · simp [ainsert, hp, h]
    · simp only [ainsert, if_neg hp, alookup_cons, ih]

@[simp] theorem amem_ainsert_self {κ ν : Type} [DecidableEq κ]
    (m : List (κ × ν)) (k : κ) (v : ν) : amem (ainsert m k v) k = true := by
  simp [amem]

theorem amem_ainsert_of_amem {κ ν : Type} [DecidableEq κ]
    (m : List (κ × ν)) (k k' : κ) (v : ν) (h : amem m k = true) :
    amem (ainsert m k' v) k = true := by
  by_cases hk : k' = k
  · subst hk; simp
  · simpa [amem, alookup_ainsert_ne m k k' v hk] using h

theorem amem_ainsert {κ ν : Type} [DecidableEq κ]
    (m : List (κ × ν)) (k k' : κ) (v : ν) (h : amem (ainsert m k' v) k = true) :
    k = k' ∨ amem m k = true := by
  by_cases hk : k = k'
  · exact Or.inl hk
  · right
    have := alookup_ainsert_ne m k k' v (fun h2 => hk h2.symm)
    simpa [amem, this] using h

/-! ## Data model: rows, settings, vectors -/

/-- Embedding vectors are opaque numeric payloads; modelled as integer lists
(their contents are never inspected by the code under verification). -/
abbrev Vec := List Int

/-- The id→vector mapping of the embeddings cache (a Python dict). -/
abbrev Dict := List (String × Vec)

/-- One catalog row of the books dataframe: `bookId`, `title`, and the text
column.  `none` models a missing/NaN text field (`pd.isna`). -/
structure Row where
  bookId : String
  title : String
  text : Option String
deriving DecidableEq

/-- Python `str.lower()`: lowercase every character.  (Implemented over the
character list rather than `String.toLower` so that it reduces in the
kernel; the two agree.) -/
def pyLower (s : String) : String := ⟨s.data.map Char.toLower⟩

/-- Python `pd.isna(text) or not str(text).strip()` from `cache.py` lines 81
and 141: the text is missing, empty, or whitespace-only (stripping leaves
the empty string exactly when every character is whitespace). -/
def blankText : Option String → Bool
  | none => true
  | some t => t.data.all Char.isWhitespace

/-- The fields of `ml/settings.py` `Settings` that the claims depend on.
`provider`, `localModel` and `cacheDirName` form the provider identity. -/
structure MLSettings where
  provider : String
  localModel : String
  cacheDirName : String
  lowerEmbeddings : Bool
  batchSize : Nat
deriving DecidableEq

/-- Build-time text normalization
`str(text).lower() if settings.lower_embeddings else str(text)`
(`cache.py` lines 87 and 144). -/
def procText (s : MLSettings) (t : String) : String :=
  if s.lowerEmbeddings then pyLower t else t

/-- One element of the `books_to_embed` work list built by
`initialize_vectorstore` (`cache.py` lines 84-88). -/
structure BookInfo where
  book_id : String
  title : String
  text : String
deriving DecidableEq

/-- The work set computed by `initialize_vectorstore` (`cache.py` lines
76-88): rows with non-blank text whose id is not yet a cache key. -/
def booksToEmbed (s : MLSettings) (df : List Row) (cache : Dict) : List BookInfo :=
  df.filterMap fun row =>
    if blankText row.text then none
    else if amem cache row.bookId then none
    else some ⟨row.bookId, row.title, procText s (row.text.getD "")⟩

theorem mem_booksToEmbed {s : MLSettings} {df : List Row} {cache : Dict} {b : BookInfo} :
    b ∈ booksToEmbed s df cache ↔
      ∃ row, row ∈ df ∧ blankText row.text = false ∧ amem cache row.bookId = false ∧
        b = ⟨row.bookId, row.title, procText s (row.text.getD "")⟩ := by
  simp only [booksToEmbed, List.mem_filterMap]
  constructor
  · rintro ⟨row, hrow, hf⟩
    by_cases h1 : blankText row.text
    · simp [h1] at hf
    · by_cases h2 : amem cache row.bookId
      · simp [h1, h2] at hf
      · simp only [h1, h2, Bool.false_eq_true, if_false, Option.some.injEq] at hf
        exact ⟨row, hrow, by simpa using h1, by simpa using h2, hf.symm⟩
  · rintro ⟨row, hrow, h1, h2, hb⟩
    exact ⟨row, hrow, by simp [h1, h2, hb]⟩

/-! ## Batch splitting and the embedding orchestrator (`cache.py` `_embed_books`) -/

/-- Helper for `chunks` below: structural recursion on a fuel argument so
that the definition reduces in the kernel; fuel `l.length` always suffices
when `bs ≠ 0`. -/
def chunksFuel {α : Type} (bs : Nat) : Nat → List α → List (List α)
  | _, [] => []
  | 0, _ :: _ => []
  | fuel + 1, x :: xs => (x :: xs).take bs :: chunksFuel bs fuel ((x :: xs).drop bs)

/-- Python `for i in range(0, len(books), batch_size): batch = books[i:i+batch_size]`
(`cache.py` lines 107-108).  `bs = 0` raises in Python (`range` step 0); the
model returns no batches there, and theorems about batching assume `0 < bs`. -/
def chunks {α : Type} (bs : Nat) (l : List α) : List (List α) :=
  if bs = 0 then [] else chunksFuel bs l.length l

@[simp] theorem chunksFuel_nil {α : Type} (bs f : Nat) :
    chunksFuel bs f ([] : List α) = [] := by
  cases f <;> rfl

theorem chunksFuel_congr {α : Type} (bs : Nat) (hbs : bs ≠ 0) :
    ∀ (f1 f2 : Nat) (l : List α), l.length ≤ f1 → l.length ≤ f2 →
      chunksFuel bs f1 l = chunksFuel bs f2 l := by
  intro f1
  induction f1 with
  | zero =>
    intro f2 l h1 _
    have : l = [] := List.eq_nil_of_length_eq_zero (Nat.le_zero.mp h1)
    subst this
    simp
  | succ f ih =>
    intro f2 l h1 h2
    match l, f2 with
    | [], _ => simp
    | x :: xs, 0 => simp at h2
    | x :: xs, g + 1 =>
      simp only [chunksFuel, List.cons.injEq, true_and]
      apply ih
      · simp only [List.length_drop, List.length_cons]
        simp only [List.length_cons] at h1
        omega
      · simp only [List.length_drop, List.length_cons]
        simp only [List.length_cons] at h2
        omega

theorem chunks_nil {α : Type} (bs : Nat) : chunks bs ([] : List α) = [] := by
  by_cases h : bs = 0 <;> simp [chunks, h, chunksFuel]

theorem chunks_cons {α : Type} (bs : Nat) (x : α) (xs : List α) (hbs : bs ≠ 0) :
    chunks bs (x :: xs) = (x :: xs).take bs :: chunks bs ((x :: xs).drop bs) := by
  simp only [chunks, if_neg hbs, List.length_cons, chunksFuel, List.cons.injEq, true_and]
  apply chunksFuel_congr bs hbs
  · simp only [List.length_drop, List.length_cons]
    omega
  · exact Nat.le_refl _

theorem mem_of_mem_chunks {α : Type} (bs : Nat) :
    ∀ (n : Nat) (l : List α), l.length ≤ n →
      ∀ b ∈ chunks bs l, ∀ x ∈ b, x ∈ l := by
  intro n
  induction n with
  | zero =>
    intro l hl b hb x hx
    have : l = [] := List.eq_nil_of_length_eq_zero (Nat.le_zero.mp hl)
    subst this
    simp [chunks_nil] at hb
  | succ n ih =>
    intro l hl b hb x hx
    match l with
    | [] => simp [chunks_nil] at hb
    | y :: ys =>
      by_cases hbs : bs = 0
      · simp [chunks, hbs] at hb
      · rw [chunks_cons bs y ys hbs] at hb
        rcases List.mem_cons.mp hb with hb | hb
        · subst hb
          exact List.mem_of_mem_take hx
        · have hlen : ((y :: ys).drop bs).length ≤ n := by
            simp only [List.length_drop, List.length_cons]
            have := hl
            simp only [List.length_cons] at this
            omega
          exact List.mem_of_mem_drop (ih ((y :: ys).drop bs) hlen b hb x hx)

/-- Python `for book, vector in zip(batch, vectors): cache[book["book_id"]] = vector`
(`cache.py` lines 113-114). -/
def mergeBatch (cache : Dict) (batch : List BookInfo) (vectors : List Vec) : Dict :=
  (batch.zip vectors).foldl (fun c p => ainsert c p.1.book_id p.2) cache

/-- Outcome of `_embed_books`: the in-memory dict, the embeddings-cache file
content (`none` = no file), the texts passed to the provider per batch, and
whether the run completed without a provider exception. -/
structure EmbedOut where
  cache : Dict
  file : Option Dict
  calls : List (List String)
  ok : Bool
deriving DecidableEq

/-- The batch loop of `_embed_books` (`cache.py` lines 107-123): per batch,
call `embed_documents` on the batch's texts, merge the returned vectors into
the dict positionally, then persist the entire dict
(`save_embeddings_cache`, `cache.py` lines 61-66, a full-snapshot overwrite).
The provider takes the zero-based call index so that a raised exception at a
chosen batch can be modelled (`none` = the call raises; the loop aborts with
the file still holding the last completed snapshot). -/
def runBatches (provider : Nat → List String → Option (List Vec)) :
    List (List BookInfo) → Nat → Dict → Option Dict → List (List String) → EmbedOut
  | [], _, cache, file, calls => ⟨cache, file, calls, true⟩
  | b :: rest, i, cache, file, calls =>
    let texts := b.map (fun bk => bk.text)
    match provider i texts with
    | none => ⟨cache, file, calls ++ [texts], false⟩
    | some vecs =>
      let cache2 := mergeBatch cache b vecs
      runBatches provider rest (i + 1) cache2 (some cache2) (calls ++ [texts])

/-- `_embed_books(books, model, cache, settings)` (`cache.py` lines 101-125). -/
def embedBooks (provider : Nat → List String → Option (List Vec)) (s : MLSettings)
    (books : List BookInfo) (cache : Dict) (file : Option Dict) : EmbedOut :=
  runBatches provider (chunks s.batchSize books) 0 cache file []

/-! ## Index build (`cache.py` `_build_vectorstore`) -/

/-- One `(text, embedding, metadata)` triple handed to `FAISS.from_embeddings`
(`cache.py` lines 145-147 and 151-155). -/
structure IndexEntry where
  text : String
  vector : Vec
  book_id : String
  title : String
deriving DecidableEq

/-- `_build_vectorstore(books_df, model, cache, settings)` (`cache.py` lines
128-161): for each dataframe row whose id is a cache key and whose text is
non-blank, add the processed text, the cached vector, and `{book_id, title}`
metadata.  Persisting the result is handled by the callers' state model. -/
def buildVectorstore (s : MLSettings) (df : List Row) (cache : Dict) : List IndexEntry :=
  df.filterMap fun row =>
    match alookup cache row.bookId with
    | none => none
    | some v =>
      if blankText row.text then none
      else some ⟨procText s (row.text.getD ""), v, row.bookId, row.title⟩

theorem mem_buildVectorstore {s : MLSettings} {df : List Row} {cache : Dict}
    {e : IndexEntry} :
    e ∈ buildVectorstore s df cache ↔
      ∃ row v, row ∈ df ∧ alookup cache row.bookId = some v ∧
        blankText row.text = false ∧
        e = ⟨procText s (row.text.getD ""), v, row.bookId, row.title⟩ := by
  simp only [buildVectorstore, List.mem_filterMap]
  constructor
  · rintro ⟨row, hrow, hf⟩
    rcases hv : alookup cache row.bookId with _ | v
    · simp [hv] at hf
    · by_cases hb : blankText row.text
      · simp [hv, hb] at hf
      · simp only [hv, hb, Bool.false_eq_true, if_false, Option.some.injEq] at hf
        exact ⟨row, v, hrow, hv, by simpa using hb, hf.symm⟩
  · rintro ⟨row, v, hrow, hv, hb, he⟩
    exact ⟨row, by simp [hrow, hv, hb, he]⟩

/-! ## `initialize_vectorstore` (`cache.py` lines 69-98) -/

/-- Outcome of `initialize_vectorstore`: `result` is the vectorstore handed
back (`none` = a provider exception propagated), `cache`/`file` the in-memory
dict and cache-file content, `index` the persisted FAISS index content, and
`calls` the texts sent to the provider. -/
structure InitOut where
  result : Option (List IndexEntry)
  cache : Dict
  file : Option Dict
  index : Option (List IndexEntry)
  calls : List (List String)

/-- `initialize_vectorstore(books_df)` (`cache.py` lines 69-98), with the
loaded cache, the cache-file content and the persisted-index content passed
explicitly: compute the work set, embed it in batches, then (when no provider
exception was raised) build the vectorstore from the updated dict and persist
it (`vectorstore.save_local`, `cache.py` line 158). -/
def initialize_vectorstore (provider : Nat → List String → Option (List Vec))
    (s : MLSettings) (df : List Row) (cache0 : Dict) (file0 : Option Dict)
    (index0 : Option (List IndexEntry)) : InitOut :=
  let toEmbed := booksToEmbed s df cache0
  let eo := embedBooks provider s toEmbed cache0 file0
  if eo.ok then
    let vs := buildVectorstore s df eo.cache
    ⟨some vs, eo.cache, eo.file, some vs, eo.calls⟩
  else ⟨none, eo.cache, eo.file, index0, eo.calls⟩

/-! ## Search layer (`ml/search.py`) and engine queries
(`ml/recommendation_engine.py`)

FAISS similarity search is an external capability: it is modelled as an
opaque function from (store, query, k) to scored entries, constrained in the
theorems only by the contract that every returned entry belongs to the store.
Scores are opaque and modelled as integers. -/

/-- A `(book_id, title, score)` result triple. -/
abbrev RecTriple := String × String × Int

/-- `similarity_search_with_score` as an opaque capability: store, text
query, k ↦ scored store entries. -/
abbrev TextSearch := List IndexEntry → String → Nat → List (IndexEntry × Int)

/-- `similarity_search_with_score_by_vector` as an opaque capability. -/
abbrev VecSearch := List IndexEntry → Vec → Nat → List (IndexEntry × Int)

/-- `search_by_text(query, vectorstore, k)` (`search.py` lines 8-28). -/
def search_by_text (tsearch : TextSearch) (query : String)
    (vs : List IndexEntry) (k : Nat) : List RecTriple :=
  (tsearch vs query k).map fun r => (r.1.book_id, r.1.title, r.2)

/-- `search_by_vector(embedding, vectorstore, k)` (`search.py` lines 31-58):
`None` short-circuits to `[]` before any index query. -/
def search_by_vector (vsearch : VecSearch) (embedding : Option Vec)
    (vs : List IndexEntry) (k : Nat) : List RecTriple :=
  match embedding with
  | none => []
  | some v => (vsearch vs v k).map fun r => (r.1.book_id, r.1.title, r.2)

/-- The normalization `recommend_by_text` applies to the caller-supplied
query before it is embedded: `text.lower()`, unconditionally
(`recommendation_engine.py` line 60). -/
def queryNormalization (text : String) : String := pyLower text

/-- `RecommendationEngine.recommend_by_text(text, count)` after
initialization (`recommendation_engine.py` lines 48-60): lowercase the
caller text and delegate to `search_by_text`. -/
def recommend_by_text (tsearch : TextSearch) (vs : List IndexEntry)
    (text : String) (k : Nat) : List RecTriple :=
  search_by_text tsearch (queryNormalization text) vs k

/-- `RecommendationEngine.recommend_by_book_id(book_id, count)` after
initialization (`recommendation_engine.py` lines 62-79): look the id up in
the embeddings cache; on a miss return `[]`.  The second component records
whether the index was queried at all. -/
def recommend_by_book_id (vsearch : VecSearch) (cache : Dict)
    (vs : List IndexEntry) (book_id : String) (k : Nat) : List RecTriple × Bool :=
  match alookup cache book_id with
  | none => ([], false)
  | some v => (search_by_vector vsearch (some v) vs k, true)

/-! ## Process state (`ml/cache.py` loaders, `st.cache_resource` memo tables,
`ml/ui.py` provider switch)

`Disk` holds the per-cache-directory embeddings-cache file and FAISS index
directory.  The two `st.cache_resource` tables of `cache.py`
(`load_embeddings_cache`, keyed by the cache directory name, and
`load_vectorstore`, keyed by (cache directory, provider, local model)) and
the memoised engine of `get_recommendation_engine` are explicit fields. -/

/-- Durable storage, keyed by cache directory name. -/
structure Disk where
  embFile : String → Option Dict
  faissDir : String → Option (List IndexEntry)

/-- `RecommendationEngine.__init__` state (`recommendation_engine.py` lines
26-29): both references start as Python `None`. -/
structure Engine where
  vectorstore : Option (List IndexEntry)
  embeddingsCache : Option Dict
deriving DecidableEq

/-- The `load_vectorstore` memo key `(cache_dir_name, provider, local_model)`
(`cache.py` line 33). -/
abbrev VSKey := String × String × String

/-- The whole in-process state: the settings singleton, the disk, the two
`st.cache_resource` memo tables and the memoised engine. -/
structure MLState where
  settings : MLSettings
  disk : Disk
  memoEmb : List (String × Dict)
  memoVS : List (VSKey × Option (List IndexEntry))
  engine : Option Engine

/-- The body of `load_embeddings_cache(cache_dir_name)` (`cache.py` lines
17-29): return the pickled mapping if the file exists, else an empty dict
(cold start, not an error; the function is total). -/
def load_embeddings_cache (disk : Disk) (dir : String) : Dict :=
  match disk.embFile dir with
  | some c => c
  | none => []

/-- The body of `load_vectorstore(cache_dir_name, provider, local_model)`
(`cache.py` lines 32-48): return the persisted index if present, else
Python `None`. -/
def load_vectorstore (disk : Disk) (dir : String) : Option (List IndexEntry) :=
  disk.faissDir dir

/-- `get_current_embeddings_cache()` through the `st.cache_resource` memo
(`cache.py` lines 17-29 and 51-53): on a miss, compute from disk and record. -/
def cachedLoadEmb (st : MLState) (dir : String) : Dict × MLState :=
  match alookup st.memoEmb dir with
  | some c => (c, st)
  | none =>
    (load_embeddings_cache st.disk dir,
     { st with memoEmb := ainsert st.memoEmb dir (load_embeddings_cache st.disk dir) })

/-- `get_current_vectorstore()` through the `st.cache_resource` memo
(`cache.py` lines 32-48 and 56-58). -/
def cachedLoadVS (st : MLState) (key : VSKey) : Option (List IndexEntry) × MLState :=
  match alookup st.memoVS key with
  | some v => (v, st)
  | none =>
    (load_vectorstore st.disk key.1,
     { st with memoVS := ainsert st.memoVS key (load_vectorstore st.disk key.1) })

/-- `get_recommendation_engine()` (`recommendation_engine.py` lines 14-17):
memoised construction of a fresh engine. -/
def get_engine (st : MLState) : Engine × MLState :=
  match st.engine with
  | some e => (e, st)
  | none => (⟨none, none⟩, { st with engine := some (⟨none, none⟩ : Engine) })

/-- `initialize_vectorstore` as it acts on process state: read the current
cache through the memo (`cache.py` line 74), run the pure
`initialize_vectorstore`, write the cache file and the FAISS index slot of
the current cache directory, and clear both `st.cache_resource` tables
(`cache.py` lines 95-96).  The provider is total here (`pf`): this is the
path where no provider exception occurs. -/
def initialize_vectorstore_st (pf : MLSettings → List String → List Vec)
    (df : List Row) (st : MLState) : List IndexEntry × MLState × List (List String) :=
  let s := st.settings
  let r0 := cachedLoadEmb st s.cacheDirName
  let st1 := r0.2
  let io := initialize_vectorstore (fun _ ts => some (pf s ts)) s df r0.1
      (st1.disk.embFile s.cacheDirName) (st1.disk.faissDir s.cacheDirName)
  let disk2 : Disk :=
    ⟨fun d => if d = s.cacheDirName then io.file else st1.disk.embFile d,
     fun d => if d = s.cacheDirName then io.index else st1.disk.faissDir d⟩
  (io.result.getD [], { st1 with disk := disk2, memoEmb := [], memoVS := [] }, io.calls)

/-- `RecommendationEngine._ensure_initialized` (`recommendation_engine.py`
lines 31-46): no-op when the vectorstore reference is set; otherwise load the
persisted vectorstore and cache through the memos, and if no persisted index
exists, build everything via `initialize_vectorstore` and re-read the cache.
Returns the updated engine, the updated state, and the provider calls made. -/
def ensure_initialized (pf : MLSettings → List String → List Vec) (df : List Row)
    (st : MLState) (e : Engine) : Engine × MLState × List (List String) :=
  match e.vectorstore with
  | some _ => (e, st, [])
  | none =>
    let s := st.settings
    let r1 := cachedLoadVS st (s.cacheDirName, s.provider, s.localModel)
    let r2 := cachedLoadEmb r1.2 s.cacheDirName
    match r1.1 with
    | some vs => (⟨some vs, some r2.1⟩, r2.2, [])
    | none =>
      let r3 := initialize_vectorstore_st pf df r2.2
      let r4 := cachedLoadEmb r3.2.1 s.cacheDirName
      (⟨some r3.1, some r4.1⟩, r4.2, r3.2.2)

/-- `recommend_by_text` at the process level: fetch the memoised engine,
ensure it is initialized, store it back, and query. -/
def recommend_by_text_st (pf : MLSettings → List String → List Vec) (df : List Row)
    (tsearch : TextSearch) (st : MLState) (text : String) (k : Nat) :
    List RecTriple × MLState × List (List String) :=
  let r0 := get_engine st
  let r1 := ensure_initialized pf df r0.2 r0.1
  (recommend_by_text tsearch (r1.1.vectorstore.getD []) text k,
   { r1.2.1 with engine := some r1.1 }, r1.2.2)

/-- `recommend_by_book_id` at the process level. -/
def recommend_by_book_id_st (pf : MLSettings → List String → List Vec) (df : List Row)
    (vsearch : VecSearch) (st : MLState) (book_id : String) (k : Nat) :
    List RecTriple × MLState × List (List String) :=
  let r0 := get_engine st
  let r1 := ensure_initialized pf df r0.2 r0.1
  ((recommend_by_book_id vsearch (r1.1.embeddingsCache.getD [])
      (r1.1.vectorstore.getD []) book_id k).1,
   { r1.2.1 with engine := some r1.1 }, r1.2.2)

/-- The provider-identity switch of `render_cache_selector` (`ui.py` lines
104-122): update the three identity fields of the settings singleton, then
`_clear_all_ml_caches()` (`ui.py` lines 13-17) empties both
`st.cache_resource` tables (`clear_all_caches`, `cache.py` lines 164-166)
and drops the memoised engine (`clear_engine_cache`,
`recommendation_engine.py` lines 82-84). -/
def switch_identity (st : MLState) (prov lm dir : String) : MLState :=
  { st with
    settings := { st.settings with provider := prov, localModel := lm, cacheDirName := dir },
    memoEmb := [], memoVS := [], engine := none }

/-! ## Query sequences and the provider-switch characterization -/

/-- A recommendation request: one of the two engine query shapes. -/
inductive Query
  | byText (text : String) (k : Nat)
  | byId (book_id : String) (k : Nat)

/-- Run one query against the process state. -/
def runQuery (pf : MLSettings → List String → List Vec) (df : List Row)
    (tsearch : TextSearch) (vsearch : VecSearch) (st : MLState) :
    Query → List RecTriple × MLState × List (List String)
  | .byText t k => recommend_by_text_st pf df tsearch st t k
  | .byId bid k => recommend_by_book_id_st pf df vsearch st bid k

/-- Run a sequence of queries, collecting the answers. -/
def runQueries (pf : MLSettings → List String → List Vec) (df : List Row)
    (tsearch : TextSearch) (vsearch : VecSearch) (st : MLState) :
    List Query → List (List RecTriple) × MLState
  | [] => ([], st)
  | q :: qs =>
    let r := runQuery pf df tsearch vsearch st q
    let rest := runQueries pf df tsearch vsearch r.2.1 qs
    (r.1 :: rest.1, rest.2)

/-- The Ready artifacts (vectorstore, embeddings cache) that the engine ends
up holding for settings `s`, as a function of `s`'s disk slots only: either
the persisted index for `s.cacheDirName` with the loaded cache file, or the
artifacts produced by `initialize_vectorstore` run against `s`'s slots. -/
def readyFromDisk (pf : MLSettings → List String → List Vec) (df : List Row)
    (s : MLSettings) (disk : Disk) : List IndexEntry × Dict :=
  match disk.faissDir s.cacheDirName with
  | some vs => (vs, load_embeddings_cache disk s.cacheDirName)
  | none =>
    let io := initialize_vectorstore (fun _ ts => some (pf s ts)) s df
        (load_embeddings_cache disk s.cacheDirName)
        (disk.embFile s.cacheDirName) (disk.faissDir s.cacheDirName)
    (io.result.getD [], match io.file with | some c => c | none => [])

/-- The answer a query receives from fixed Ready artifacts. -/
def answerFrom (tsearch : TextSearch) (vsearch : VecSearch)
    (vs : List IndexEntry) (cache : Dict) : Query → List RecTriple
  | .byText t k => recommend_by_text tsearch vs t k
  | .byId bid k => (recommend_by_book_id vsearch cache vs bid k).1

/-! ## Helper lemmas about `mergeBatch` and `runBatches` -/

theorem mergeBatch_nil_vectors (cache : Dict) (batch : List BookInfo) :
    mergeBatch cache batch [] = cache := by
  cases batch <;> rfl

theorem mergeBatch_cons (cache : Dict) (b : BookInfo) (bs : List BookInfo)
    (v : Vec) (vsx : List Vec) :
    mergeBatch cache (b :: bs) (v :: vsx) = mergeBatch (ainsert cache b.book_id v) bs vsx := rfl

theorem alookup_mergeBatch_of_forall_ne (cache : Dict) (batch : List BookInfo)
    (vectors : List Vec) (k : String) (h : ∀ b ∈ batch, b.book_id ≠ k) :
    alookup (mergeBatch cache batch vectors) k = alookup cache k := by
  induction batch generalizing cache vectors with
  | nil => cases vectors <;> rfl
  | cons b bs ih =>
    cases vectors with
    | nil => rfl
    | cons v vsx =>
      rw [mergeBatch_cons, ih _ _ (fun p hp => h p (List.mem_cons_of_mem b hp)),
        alookup_ainsert_ne _ _ _ _ (h b (List.mem_cons_self b bs))]

theorem amem_mergeBatch_of_amem (cache : Dict) (batch : List BookInfo)
    (vectors : List Vec) (k : String) (h : amem cache k = true) :
    amem (mergeBatch cache batch vectors) k = true := by
  induction batch generalizing cache vectors with
  | nil => cases vectors <;> exact h
  | cons b bs ih =>
    cases vectors with
    | nil => exact h
    | cons v vsx =>
      rw [mergeBatch_cons]
      exact ih _ _ (amem_ainsert_of_amem _ _ _ _ h)

theorem amem_mergeBatch_self (cache : Dict) (batch : List BookInfo)
    (vectors : List Vec) (hlen : vectors.length = batch.length)
    (b : BookInfo) (hb : b ∈ batch) :
    amem (mergeBatch cache batch vectors) b.book_id = true := by
  induction batch generalizing cache vectors with
  | nil => simp at hb
  | cons b0 bs ih =>
    cases vectors with
    | nil => simp at hlen
    | cons v vsx =>
      rw [mergeBatch_cons]
      rcases List.mem_cons.mp hb with hb | hb
      · subst hb
        exact amem_mergeBatch_of_amem _ _ _ _ (amem_ainsert_self _ _ _)
      · exact ih _ _ (by simpa using hlen) hb

theorem amem_of_amem_mergeBatch (cache : Dict) (batch : List BookInfo)
    (vectors : List Vec) (k : String)
    (h : amem (mergeBatch cache batch vectors) k = true) :
    amem cache k = true ∨ ∃ b ∈ batch, b.book_id = k := by
  induction batch generalizing cache vectors with
  | nil => cases vectors <;> exact Or.inl h
  | cons b bs ih =>
    cases vectors with
    | nil => exact Or.inl h
    | cons v vsx =>
      rw [mergeBatch_cons] at h
      rcases ih _ _ h with h2 | ⟨b2, hb2, hk⟩
      · rcases amem_ainsert _ _ _ _ h2 with hk | h3
        · exact Or.inr ⟨b, List.mem_cons_self b bs, hk.symm⟩
        · exact Or.inl h3
      · exact Or.inr ⟨b2, List.mem_cons_of_mem b hb2, hk⟩

theorem calls_runBatches (provider : Nat → List String → Option (List Vec))
    (batches : List (List BookInfo)) :
    ∀ (i : Nat) (cache : Dict) (file : Option Dict) (calls0 : List (List String)),
      ∀ ts ∈ (runBatches provider batches i cache file calls0).calls,
        ts ∈ calls0 ∨ ∃ b ∈ batches, ts = b.map (fun bk => bk.text) := by
  induction batches with
  | nil =>
    intro i cache file calls0 ts hts
    exact Or.inl hts
  | cons b bs ih =>
    intro i cache file calls0 ts hts
    simp only [runBatches] at hts
    rcases hp : provider i (b.map (fun bk => bk.text)) with _ | vecs
    · rw [hp] at hts
      simp only [List.mem_append, List.mem_singleton] at hts
      rcases hts with hts | hts
      · exact Or.inl hts
      · exact Or.inr ⟨b, List.mem_cons_self b bs, hts⟩
    · rw [hp] at hts
      rcases ih _ _ _ _ ts hts with hts | ⟨b2, hb2, hts⟩
      · simp only [List.mem_append, List.mem_singleton] at hts
        rcases hts with hts | hts
        · exact Or.inl hts
        · exact Or.inr ⟨b, List.mem_cons_self b bs, hts⟩
      · exact Or.inr ⟨b2, List.mem_cons_of_mem b hb2, hts⟩

theorem amem_runBatches_cache (provider : Nat → List String → Option (List Vec))
    (batches : List (List BookInfo)) :
    ∀ (i : Nat) (cache : Dict) (file : Option Dict) (calls0 : List (List String))
      (k : String),
      amem (runBatches provider batches i cache file calls0).cache k = true →
      amem cache k = true ∨ ∃ b2, (∃ batch ∈ batches, b2 ∈ batch) ∧ b2.book_id = k := by
  induction batches with
  | nil =>
    intro i cache file calls0 k h
    exact Or.inl h
  | cons b bs ih =>
    intro i cache file calls0 k h
    simp only [runBatches] at h
    rcases hp : provider i (b.map (fun bk => bk.text)) with _ | vecs
    · rw [hp] at h
      exact Or.inl h
    · rw [hp] at h
      rcases ih _ _ _ _ _ h with h2 | ⟨b2, ⟨batch, hbatch, hb2⟩, hk⟩
      · rcases amem_of_amem_mergeBatch _ _ _ _ h2 with h3 | ⟨b2, hb2, hk⟩
        · exact Or.inl h3
        · exact Or.inr ⟨b2, ⟨b, List.mem_cons_self b bs, hb2⟩, hk⟩
      · exact Or.inr ⟨b2, ⟨batch, List.mem_cons_of_mem b hbatch, hb2⟩, hk⟩

/-! ## Projection lemmas for `initialize_vectorstore` -/

theorem initialize_vectorstore_calls (provider : Nat → List String → Option (List Vec))
    (s : MLSettings) (df : List Row) (cache0 : Dict) (file0 : Option Dict)
    (index0 : Option (List IndexEntry)) :
    (initialize_vectorstore provider s df cache0 file0 index0).calls =
      (embedBooks provider s (booksToEmbed s df cache0) cache0 file0).calls := by
  simp only [initialize_vectorstore]
  split <;> rfl

theorem initialize_vectorstore_cache (provider : Nat → List String → Option (List Vec))
    (s : MLSettings) (df : List Row) (cache0 : Dict) (file0 : Option Dict)
    (index0 : Option (List IndexEntry)) :
    (initialize_vectorstore provider s df cache0 file0 index0).cache =
      (embedBooks provider s (booksToEmbed s df cache0) cache0 file0).cache := by
  simp only [initialize_vectorstore]
  split <;> rfl

theorem initialize_vectorstore_file (provider : Nat → List String → Option (List Vec))
    (s : MLSettings) (df : List Row) (cache0 : Dict) (file0 : Option Dict)
    (index0 : Option (List IndexEntry)) :
    (initialize_vectorstore provider s df cache0 file0 index0).file =
      (embedBooks provider s (booksToEmbed s df cache0) cache0 file0).file := by
  simp only [initialize_vectorstore]
  split <;> rfl

theorem initialize_vectorstore_ok (provider : Nat → List String → Option (List Vec))
    (s : MLSettings) (df : List Row) (cache0 : Dict) (file0 : Option Dict)
    (index0 : Option (List IndexEntry))
    (h : (embedBooks provider s (booksToEmbed s df cache0) cache0 file0).ok = true) :
    (initialize_vectorstore provider s df cache0 file0 index0).result =
        some (buildVectorstore s df
          (embedBooks provider s (booksToEmbed s df cache0) cache0 file0).cache) ∧
      (initialize_vectorstore provider s df cache0 file0 index0).index =
        some (buildVectorstore s df
          (embedBooks provider s (booksToEmbed s df cache0) cache0 file0).cache) := by
  simp [initialize_vectorstore, h]

/-! ## Claim theorems -/

/-- C1, counterexample to the claim as stated: with the lowercasing toggle
off, the build step leaves the row text "A" unaltered (`procText`), while
`recommend_by_text` still lowercases the caller-supplied query
(`queryNormalization`, from the unconditional `text.lower()` at
`recommendation_engine.py` line 60), so the normalization applied to the
query is not the normalization applied to row texts at index-build time. -/
theorem C1_counterexample :
    queryNormalization "A" ≠
      procText ⟨"lmstudio", "minilm", "cache", false, 512⟩ "A" := by
  decide

/-- C1 (amended): when the lowercasing toggle is on, the normalization
`recommend_by_text` applies to the caller-supplied query before embedding it
is the same normalization applied to each row's text at index-build time
(both lowercase); when the toggle is off the two differ, because the query
is still lowercased. -/
theorem C1_query_normalization_matches_build (s : MLSettings) (tsearch : TextSearch)
    (vs : List IndexEntry) (t : String) (k : Nat) (h : s.lowerEmbeddings = true) :
    recommend_by_text tsearch vs t k = search_by_text tsearch (procText s t) vs k := by
  simp [recommend_by_text, procText, queryNormalization, h]

theorem C1_witness :
    (⟨"lmstudio", "minilm", "cache", true, 512⟩ : MLSettings).lowerEmbeddings = true ∧
      recommend_by_text (fun vs _ _ => vs.map fun e => (e, 0)) [] "ABC" 5 =
        search_by_text (fun vs _ _ => vs.map fun e => (e, 0))
          (procText ⟨"lmstudio", "minilm", "cache", true, 512⟩ "ABC") [] 5 :=
  ⟨rfl, C1_query_normalization_matches_build _ _ _ _ _ rfl⟩

/-- C6: every (text, vector, metadata) triple that the build step adds to
the SimilarityIndex takes its vector from the VectorCache entry for its id,
so every id in the index is also a cache key. -/
theorem C6_index_is_projection_of_cache (s : MLSettings) (df : List Row)
    (cache : Dict) (e : IndexEntry) (he : e ∈ buildVectorstore s df cache) :
    alookup cache e.book_id = some e.vector ∧ amem cache e.book_id = true := by
  rcases mem_buildVectorstore.mp he with ⟨row, v, _, hv, _, hedef⟩
  subst hedef
  exact ⟨hv, by simp [amem, hv]⟩

theorem C6_witness :
    alookup [("b1", ([1, 2] : Vec))] "b1" = some [1, 2] ∧
      amem [("b1", ([1, 2] : Vec))] "b1" = true :=
  C6_index_is_projection_of_cache ⟨"lmstudio", "minilm", "cache", false, 512⟩
    [⟨"b1", "T1", some "desc"⟩] [("b1", [1, 2])] ⟨"desc", [1, 2], "b1", "T1"⟩
    (by decide)

/-- C7: for every book id absent from the VectorCache (including ids not in
the catalog at all), `recommend_by_book_id` returns the empty list without
querying the index (the model is total, so no error is raised). -/
theorem C7_missing_id_empty_result (vsearch : VecSearch) (cache : Dict)
    (vs : List IndexEntry) (book_id : String) (k : Nat)
    (h : alookup cache book_id = none) :
    recommend_by_book_id vsearch cache vs book_id k = ([], false) := by
  simp [recommend_by_book_id, h]

theorem C7_witness :
    recommend_by_book_id (fun vs _ _ => vs.map fun e => (e, 0))
      [("b1", [1, 2])] [⟨"desc", [1, 2], "b1", "T1"⟩] "unknown-id" 5 = ([], false) :=
  C7_missing_id_empty_result _ _ _ _ _ (by decide)

/-- C9: loading the persisted embeddings cache when no cache file exists for
the provider identity's cache directory returns an empty mapping (a cold
start; the loader is total, so the caller is not failed). -/
theorem C9_absent_cache_file_cold_start (disk : Disk) (dir : String)
    (h : disk.embFile dir = none) :
    load_embeddings_cache disk dir = [] := by
  simp [load_embeddings_cache, h]

theorem C9_witness :
    load_embeddings_cache ⟨fun _ => none, fun _ => none⟩ "cache-gemini" = [] :=
  C9_absent_cache_file_cold_start _ _ rfl

/-- C3: for every catalog dataframe and every cache state, a row whose id is
already a VectorCache key is never placed in the work set, and every text
the initialization sends to the EmbeddingProvider is the text of some
work-set row — so the provider is never re-called for an already-cached row,
in this or any later initialization cycle with the same identity. -/
theorem C3_cached_ids_never_reembedded (provider : Nat → List String → Option (List Vec))
    (s : MLSettings) (df : List Row) (cache0 : Dict) (file0 : Option Dict)
    (index0 : Option (List IndexEntry)) (id0 : String)
    (h : amem cache0 id0 = true) :
    (∀ b ∈ booksToEmbed s df cache0, b.book_id ≠ id0) ∧
      (∀ ts ∈ (initialize_vectorstore provider s df cache0 file0 index0).calls,
        ∀ t ∈ ts, ∃ b, b ∈ booksToEmbed s df cache0 ∧ t = b.text) := by
  constructor
  · intro b hb
    rcases mem_booksToEmbed.mp hb with ⟨row, _, _, hmem, hbdef⟩
    subst hbdef
    intro hid
    have h2 : amem cache0 id0 = false := hid ▸ hmem
    simp [h] at h2
  · intro ts hts t ht
    rw [initialize_vectorstore_calls] at hts
    rcases calls_runBatches provider (chunks s.batchSize (booksToEmbed s df cache0))
        0 cache0 file0 [] ts hts with h2 | ⟨batch, hbatch, hts2⟩
    · simp at h2
    · subst hts2
      rcases List.mem_map.mp ht with ⟨bk, hbk, hbt⟩
      exact ⟨bk, mem_of_mem_chunks s.batchSize (booksToEmbed s df cache0).length
        (booksToEmbed s df cache0) (Nat.le_refl _) batch hbatch bk hbk, hbt.symm⟩

theorem C3_witness :
    amem [("b1", ([7] : Vec))] "b1" = true ∧
      ∀ b ∈ booksToEmbed ⟨"lmstudio", "minilm", "cache", false, 2⟩
          [⟨"b1", "T1", some "x"⟩, ⟨"b2", "T2", some "y"⟩] [("b1", [7])],
        b.book_id ≠ "b1" :=
  ⟨by decide,
    (C3_cached_ids_never_reembedded (fun _ ts => some (ts.map fun _ => [0]))
      ⟨"lmstudio", "minilm", "cache", false, 2⟩
      [⟨"b1", "T1", some "x"⟩, ⟨"b2", "T2", some "y"⟩] [("b1", [7])] none none
      "b1" (by decide)).1⟩

/-- C8: for a batch of rows and the provider's returned vectors, the merge
into the VectorCache is positional — with pairwise-distinct batch ids and
matching lengths, the cache entry for the row at position i is exactly the
returned vector at position i. -/
theorem C8_batch_merge_is_positional (cache : Dict) (batch : List BookInfo)
    (vectors : List Vec) (hnodup : (batch.map fun b => b.book_id).Nodup)
    (hlen : vectors.length = batch.length) (i : Nat) (hi : i < batch.length) :
    alookup (mergeBatch cache batch vectors) (batch.get ⟨i, hi⟩).book_id
      = some (vectors.get ⟨i, by rw [hlen]; exact hi⟩) := by
  induction batch generalizing cache vectors i with
  | nil => simp at hi
  | cons b bs ih =>
    cases vectors with
    | nil => simp at hlen
    | cons v vsx =>
      rw [mergeBatch_cons]
      cases i with
      | zero =>
        have hne : ∀ p ∈ bs, p.book_id ≠ b.book_id := by
          simp only [List.map_cons, List.nodup_cons, List.mem_map] at hnodup
          intro p hp heq
          exact hnodup.1 ⟨p, hp, heq⟩
        rw [show ((b :: bs).get ⟨0, hi⟩) = b from rfl,
          alookup_mergeBatch_of_forall_ne _ _ _ _ hne]
        simp
      | succ j =>
        have hnd2 : (bs.map fun b => b.book_id).Nodup := by
          simp only [List.map_cons, List.nodup_cons] at hnodup
          exact hnodup.2
        have hlen2 : vsx.length = bs.length := by simpa using hlen
        have hj : j < bs.length := by
          simpa using hi
        have := ih (ainsert cache b.book_id v) vsx hnd2 hlen2 j hj
        simpa using this

theorem C8_witness :
    alookup (mergeBatch [] [⟨"b1", "T1", "x"⟩, ⟨"b2", "T2", "y"⟩] [[1], [2]]) "b2"
      = some [2] := by
  have h := C8_batch_merge_is_positional [] [⟨"b1", "T1", "x"⟩, ⟨"b2", "T2", "y"⟩]
    [[1], [2]] (by decide) (by decide) 1 (by decide)
  simpa using h

/-- C4: a row whose text field is empty, whitespace-only, or missing is
never added as a VectorCache key by initialization (when its id is not
already a key and no same-id row has usable text), is never added to the
SimilarityIndex by the build step (for any cache), and therefore never
appears in any recommendation result; `recommend_by_book_id` for such an id
returns the empty list. -/
theorem C4_blank_rows_excluded (provider : Nat → List String → Option (List Vec))
    (s : MLSettings) (df : List Row) (cache0 : Dict) (file0 : Option Dict)
    (index0 : Option (List IndexEntry)) (r : Row)
    (_hr : r ∈ df) (_hblank : blankText r.text = true)
    (hall : ∀ r2 ∈ df, r2.bookId = r.bookId → blankText r2.text = true)
    (h0 : amem cache0 r.bookId = false) :
    amem (initialize_vectorstore provider s df cache0 file0 index0).cache
        r.bookId = false ∧
      (∀ cache : Dict, ∀ e ∈ buildVectorstore s df cache, e.book_id ≠ r.bookId) ∧
      (∀ (vsearch : VecSearch) (vs : List IndexEntry) (k : Nat),
        recommend_by_book_id vsearch
          (initialize_vectorstore provider s df cache0 file0 index0).cache
          vs r.bookId k = ([], false)) ∧
      (∀ tsearch : TextSearch, (∀ vs q k, ∀ p ∈ tsearch vs q k, p.1 ∈ vs) →
        ∀ (cache : Dict) (q : String) (k : Nat),
          ∀ res ∈ search_by_text tsearch q (buildVectorstore s df cache) k,
            res.1 ≠ r.bookId) := by
  have hws : ∀ b ∈ booksToEmbed s df cache0, b.book_id ≠ r.bookId := by
    intro b hb
    rcases mem_booksToEmbed.mp hb with ⟨row2, hrow2, hblank2, _, hbdef⟩
    subst hbdef
    intro heq
    have := hall row2 hrow2 heq
    simp [this] at hblank2
  have hmain : amem (initialize_vectorstore provider s df cache0 file0 index0).cache
      r.bookId = false := by
    rcases Bool.eq_false_or_eq_true
        (amem (initialize_vectorstore provider s df cache0 file0 index0).cache r.bookId)
      with ht | hf
    swap
    · exact hf
    · exfalso
      rw [initialize_vectorstore_cache] at ht
      simp only [embedBooks] at ht
      rcases amem_runBatches_cache provider
          (chunks s.batchSize (booksToEmbed s df cache0)) 0 cache0 file0 [] _ ht
        with h2 | ⟨b2, ⟨batch, hbatch, hb2⟩, hk⟩
      · simp [h0] at h2
      · exact hws b2
          (mem_of_mem_chunks s.batchSize (booksToEmbed s df cache0).length
            (booksToEmbed s df cache0) (Nat.le_refl _) batch hbatch b2 hb2) hk
  have hidx : ∀ cache : Dict, ∀ e ∈ buildVectorstore s df cache, e.book_id ≠ r.bookId := by
    intro cache e he
    rcases mem_buildVectorstore.mp he with ⟨row2, v, hrow2, _, hblank2, hedef⟩
    subst hedef
    intro heq
    have := hall row2 hrow2 heq
    simp [this] at hblank2
  have hnone : alookup (initialize_vectorstore provider s df cache0 file0 index0).cache
      r.bookId = none := by
    rcases halo : alookup (initialize_vectorstore provider s df cache0 file0 index0).cache
        r.bookId with _ | v
    · rfl
    · rw [amem, halo] at hmain
      simp at hmain
  refine ⟨hmain, hidx, ?_, ?_⟩
  · intro vsearch vs k
    simp [recommend_by_book_id, hnone]
  · intro tsearch hcontract cache q k res hres
    simp only [search_by_text] at hres
    rcases List.mem_map.mp hres with ⟨p, hp, hresdef⟩
    subst hresdef
    exact hidx cache p.1 (hcontract _ _ _ p hp)

theorem C4_witness :
    blankText (some " ") = true ∧
      amem (initialize_vectorstore (fun _ ts => some (ts.map fun _ => [0]))
          ⟨"lmstudio", "minilm", "cache", false, 2⟩
          [⟨"b0", "T0", some " "⟩, ⟨"b1", "T1", some "x"⟩] [] none none).cache
        "b0" = false :=
  ⟨by decide,
    (C4_blank_rows_excluded (fun _ ts => some (ts.map fun _ => [0]))
      ⟨"lmstudio", "minilm", "cache", false, 2⟩
      [⟨"b0", "T0", some " "⟩, ⟨"b1", "T1", some "x"⟩] [] none none
      ⟨"b0", "T0", some " "⟩ (by decide) (by decide) (by decide) (by decide)).1⟩

/-! ## Failure-at-batch-j provider and completed-batch folding (for C5) -/

/-- A provider built from a total embedding function `f` that raises exactly
on its zero-based call number `j`. -/
def failAt (f : List String → List Vec) (j : Nat) :
    Nat → List String → Option (List Vec) :=
  fun i ts => if i = j then none else some (f ts)

/-- Folding completed batches into the cache, batch by batch, each merged
positionally with the vectors `f` returns for its texts. -/
def applyBatches (f : List String → List Vec) (batches : List (List BookInfo))
    (cache : Dict) : Dict :=
  batches.foldl (fun c b => mergeBatch c b (f (b.map fun bk => bk.text))) cache

@[simp] theorem applyBatches_nil (f : List String → List Vec) (cache : Dict) :
    applyBatches f [] cache = cache := rfl

theorem applyBatches_cons (f : List String → List Vec) (b : List BookInfo)
    (bs : List (List BookInfo)) (cache : Dict) :
    applyBatches f (b :: bs) cache =
      applyBatches f bs (mergeBatch cache b (f (b.map fun bk => bk.text))) := rfl

theorem amem_applyBatches_of_amem (f : List String → List Vec)
    (batches : List (List BookInfo)) (cache : Dict) (k : String)
    (h : amem cache k = true) : amem (applyBatches f batches cache) k = true := by
  induction batches generalizing cache with
  | nil => exact h
  | cons b0 bs ih =>
    rw [applyBatches_cons]
    exact ih _ (amem_mergeBatch_of_amem _ _ _ _ h)

theorem amem_applyBatches_self (f : List String → List Vec)
    (hlen : ∀ ts, (f ts).length = ts.length)
    (batches : List (List BookInfo)) (cache : Dict)
    (batch : List BookInfo) (hb : batch ∈ batches)
    (bk : BookInfo) (hbk : bk ∈ batch) :
    amem (applyBatches f batches cache) bk.book_id = true := by
  induction batches generalizing cache with
  | nil => simp at hb
  | cons b0 bs ih =>
    rw [applyBatches_cons]
    rcases List.mem_cons.mp hb with hb | hb
    · subst hb
      exact amem_applyBatches_of_amem _ _ _ _
        (amem_mergeBatch_self _ _ _ (by rw [hlen]; simp) bk hbk)
    · exact ih _ hb

theorem runBatches_failAt (f : List String → List Vec) :
    ∀ (batches : List (List BookInfo)) (i j : Nat) (cache : Dict)
      (file : Option Dict) (calls0 : List (List String)),
      i ≤ j → j - i < batches.length →
      (runBatches (failAt f j) batches i cache file calls0).ok = false ∧
        (runBatches (failAt f j) batches i cache file calls0).cache =
          applyBatches f (batches.take (j - i)) cache ∧
        (runBatches (failAt f j) batches i cache file calls0).file =
          (if i = j then file
           else some (applyBatches f (batches.take (j - i)) cache)) := by
  intro batches
  induction batches with
  | nil =>
    intro i j cache file calls0 _ hlt
    simp at hlt
  | cons b bs ih =>
    intro i j cache file calls0 hij hlt
    by_cases hii : i = j
    · subst hii
      simp only [runBatches, failAt, if_pos rfl]
      simp
    · have hij2 : i + 1 ≤ j := by omega
      have hlt2 : j - (i + 1) < bs.length := by
        simp only [List.length_cons] at hlt
        omega
      have htake : (b :: bs).take (j - i) = b :: bs.take (j - (i + 1)) := by
        have hsub : j - i = (j - (i + 1)) + 1 := by omega
        rw [hsub]
        rfl
      simp only [runBatches, failAt, if_neg hii]
      rcases ih (i + 1) j (mergeBatch cache b (f (b.map fun bk => bk.text)))
          (some (mergeBatch cache b (f (b.map fun bk => bk.text))))
          (calls0 ++ [b.map fun bk => bk.text]) hij2 hlt2 with ⟨hok, hcache, hfile⟩
      refine ⟨hok, ?_, ?_⟩
      · rw [hcache, htake, applyBatches_cons]
      · rw [hfile, htake, applyBatches_cons]
        by_cases hj2 : i + 1 = j
        · rw [if_pos hj2]
          have hz : j - (i + 1) = 0 := by omega
          rw [hz]
          simp
        · rw [if_neg hj2]

/-- C5: after each completed batch `_embed_books` merges the batch into the
in-memory mapping and persists the entire mapping as a complete snapshot, so
when the provider call for zero-based batch j fails, the persisted cache
file holds exactly the initial mapping merged with batches 0..j-1, and a
retry's recomputed work set (from the persisted mapping) contains none of
the rows of those completed batches. -/
theorem C5_completed_batches_persisted (f : List String → List Vec)
    (s : MLSettings) (books : List BookInfo) (cache0 : Dict) (file0 : Option Dict)
    (j : Nat) (hj : j < (chunks s.batchSize books).length)
    (hlen : ∀ ts, (f ts).length = ts.length) :
    (embedBooks (failAt f j) s books cache0 file0).ok = false ∧
      (embedBooks (failAt f j) s books cache0 file0).file =
        (if j = 0 then file0
         else some (applyBatches f ((chunks s.batchSize books).take j) cache0)) ∧
      (embedBooks (failAt f j) s books cache0 file0).cache =
        applyBatches f ((chunks s.batchSize books).take j) cache0 ∧
      (∀ batch ∈ (chunks s.batchSize books).take j, ∀ bk ∈ batch,
        amem (applyBatches f ((chunks s.batchSize books).take j) cache0)
          bk.book_id = true) ∧
      (∀ (df : List Row),
        ∀ b2 ∈ booksToEmbed s df
            (applyBatches f ((chunks s.batchSize books).take j) cache0),
          ∀ batch ∈ (chunks s.batchSize books).take j, ∀ bk ∈ batch,
            b2.book_id ≠ bk.book_id) := by
  have h0 : (0 : Nat) ≤ j := Nat.zero_le j
  have hlt : j - 0 < (chunks s.batchSize books).length := by simpa using hj
  rcases runBatches_failAt f (chunks s.batchSize books) 0 j cache0 file0 [] h0 hlt
    with ⟨hok, hcache, hfile⟩
  simp only [Nat.sub_zero] at hcache hfile
  have hmem : ∀ batch ∈ (chunks s.batchSize books).take j, ∀ bk ∈ batch,
      amem (applyBatches f ((chunks s.batchSize books).take j) cache0)
        bk.book_id = true :=
    fun batch hb bk hbk => amem_applyBatches_self f hlen _ cache0 batch hb bk hbk
  refine ⟨hok, ?_, hcache, hmem, ?_⟩
  · simp only [embedBooks]
    rw [hfile]
    by_cases hj0 : j = 0
    · subst hj0
      simp
    · rw [if_neg (fun h => hj0 h.symm), if_neg hj0]
  · intro df b2 hb2 batch hb bk hbk
    rcases mem_booksToEmbed.mp hb2 with ⟨row2, _, _, hmem2, hbdef⟩
    subst hbdef
    intro heq
    have := hmem batch hb bk hbk
    rw [← heq] at this
    simp only at this
    rw [this] at hmem2
    exact absurd hmem2 (by simp)

theorem C5_witness :
    (embedBooks (failAt (fun ts => ts.map fun _ => [5]) 1)
        ⟨"lmstudio", "minilm", "cache", false, 1⟩
        [⟨"b1", "T1", "x"⟩, ⟨"b2", "T2", "y"⟩] [] none).ok = false :=
  (C5_completed_batches_persisted (fun ts => ts.map fun _ => [5])
    ⟨"lmstudio", "minilm", "cache", false, 1⟩
    [⟨"b1", "T1", "x"⟩, ⟨"b2", "T2", "y"⟩] [] none 1 (by decide)
    (fun ts => by simp)).1

/-- C10: when a persisted similarity index exists for the current provider
identity (and the `st.cache_resource` tables hold no entry for it yet, as
after a clear or process start), `_ensure_initialized` only loads: it makes
no provider call, leaves the disk untouched, and sets the engine references
to the persisted index and the loaded cache file; and (given the search
contract) every id in any subsequent recommendation result comes from that
persisted index, so catalog rows absent from it — rows added after the index
was persisted — never appear until the engine state is cleared. -/
theorem C10_existing_index_only_loaded (pf : MLSettings → List String → List Vec)
    (df : List Row) (st : MLState) (e : Engine) (idx : List IndexEntry)
    (hidx : st.disk.faissDir st.settings.cacheDirName = some idx)
    (hmemoVS : alookup st.memoVS
      (st.settings.cacheDirName, st.settings.provider, st.settings.localModel) = none)
    (hmemoEmb : alookup st.memoEmb st.settings.cacheDirName = none)
    (hvs : e.vectorstore = none) :
    (ensure_initialized pf df st e).2.2 = [] ∧
      (ensure_initialized pf df st e).2.1.disk = st.disk ∧
      (ensure_initialized pf df st e).1.vectorstore = some idx ∧
      (ensure_initialized pf df st e).1.embeddingsCache =
        some (load_embeddings_cache st.disk st.settings.cacheDirName) ∧
      (∀ tsearch : TextSearch, (∀ vs q k, ∀ p ∈ tsearch vs q k, p.1 ∈ vs) →
        ∀ (q : String) (k : Nat),
          ∀ res ∈ search_by_text tsearch q
              ((ensure_initialized pf df st e).1.vectorstore.getD []) k,
            ∃ en ∈ idx, en.book_id = res.1) := by
  have hmain : ensure_initialized pf df st e =
      (⟨some idx, some (load_embeddings_cache st.disk st.settings.cacheDirName)⟩,
       { st with
         memoVS := ainsert st.memoVS
           (st.settings.cacheDirName, st.settings.provider, st.settings.localModel)
           (some idx),
         memoEmb := ainsert st.memoEmb st.settings.cacheDirName
           (load_embeddings_cache st.disk st.settings.cacheDirName) },
       []) := by
    simp only [ensure_initialized, hvs, cachedLoadVS, hmemoVS, load_vectorstore, hidx,
      cachedLoadEmb, hmemoEmb]
  refine ⟨by rw [hmain], by rw [hmain], by rw [hmain], by rw [hmain], ?_⟩
  intro tsearch hcontract q k res hres
  rw [hmain] at hres
  simp only [search_by_text, Option.getD_some] at hres
  rcases List.mem_map.mp hres with ⟨p, hp, hresdef⟩
  subst hresdef
  exact ⟨p.1, hcontract _ _ _ p hp, rfl⟩

theorem C10_witness :
    (ensure_initialized (fun _ ts => ts.map fun _ => [0]) []
        ⟨⟨"lmstudio", "minilm", "cache", false, 2⟩,
         ⟨fun d => if d = "cache" then some [("b1", [1])] else none,
          fun d => if d = "cache" then some [⟨"x", [1], "b1", "T1"⟩] else none⟩,
         [], [], none⟩ ⟨none, none⟩).2.2 = [] ∧
      (ensure_initialized (fun _ ts => ts.map fun _ => [0]) []
          ⟨⟨"lmstudio", "minilm", "cache", false, 2⟩,
           ⟨fun d => if d = "cache" then some [("b1", [1])] else none,
            fun d => if d = "cache" then some [⟨"x", [1], "b1", "T1"⟩] else none⟩,
           [], [], none⟩ ⟨none, none⟩).1.vectorstore = some [⟨"x", [1], "b1", "T1"⟩] :=
  ⟨(C10_existing_index_only_loaded (fun _ ts => ts.map fun _ => [0]) []
      ⟨⟨"lmstudio", "minilm", "cache", false, 2⟩,
       ⟨fun d => if d = "cache" then some [("b1", [1])] else none,
        fun d => if d = "cache" then some [⟨"x", [1], "b1", "T1"⟩] else none⟩,
       [], [], none⟩ ⟨none, none⟩ [⟨"x", [1], "b1", "T1"⟩]
      (by decide) rfl rfl rfl).1,
    (C10_existing_index_only_loaded (fun _ ts => ts.map fun _ => [0]) []
      ⟨⟨"lmstudio", "minilm", "cache", false, 2⟩,
       ⟨fun d => if d = "cache" then some [("b1", [1])] else none,
        fun d => if d = "cache" then some [⟨"x", [1], "b1", "T1"⟩] else none⟩,
       [], [], none⟩ ⟨none, none⟩ [⟨"x", [1], "b1", "T1"⟩]
      (by decide) rfl rfl rfl).2.2.1⟩

/-! ## Helper lemmas for the provider-switch claim -/

theorem MLState_engine_update_self (st : MLState) (e : Engine)
    (h : st.engine = some e) : { st with engine := some e } = st := by
  cases st
  simp only at h
  rw [h]

theorem runQuery_ready (pf : MLSettings → List String → List Vec) (df : List Row)
    (tsearch : TextSearch) (vsearch : VecSearch) (st : MLState)
    (vs : List IndexEntry) (cache : Dict)
    (h : st.engine = some ⟨some vs, some cache⟩) (q : Query) :
    runQuery pf df tsearch vsearch st q =
      (answerFrom tsearch vsearch vs cache q, st, []) := by
  have hupd := MLState_engine_update_self st ⟨some vs, some cache⟩ h
  cases q with
  | byText t k =>
    simp only [runQuery, recommend_by_text_st, get_engine, h, ensure_initialized,
      answerFrom, Option.getD_some, hupd]
  | byId bid k =>
    simp only [runQuery, recommend_by_book_id_st, get_engine, h, ensure_initialized,
      answerFrom, Option.getD_some, hupd]

theorem runQueries_ready (pf : MLSettings → List String → List Vec) (df : List Row)
    (tsearch : TextSearch) (vsearch : VecSearch)
    (vs : List IndexEntry) (cache : Dict) :
    ∀ (qs : List Query) (st : MLState), st.engine = some ⟨some vs, some cache⟩ →
      runQueries pf df tsearch vsearch st qs =
        (qs.map (answerFrom tsearch vsearch vs cache), st) := by
  intro qs
  induction qs with
  | nil =>
    intro st _
    rfl
  | cons q rest ih =>
    intro st h
    simp only [runQueries, runQuery_ready pf df tsearch vsearch st vs cache h q,
      ih st h, List.map_cons]

theorem ensure_cold (pf : MLSettings → List String → List Vec) (df : List Row)
    (st1 : MLState) (hE : st1.memoEmb = []) (hV : st1.memoVS = []) :
    (ensure_initialized pf df st1 ⟨none, none⟩).1 =
      ⟨some (readyFromDisk pf df st1.settings st1.disk).1,
       some (readyFromDisk pf df st1.settings st1.disk).2⟩ := by
  cases hfd : st1.disk.faissDir st1.settings.cacheDirName with
  | some vs =>
    simp only [ensure_initialized, cachedLoadVS, hV, alookup_nil, load_vectorstore, hfd,
      cachedLoadEmb, hE, readyFromDisk, load_embeddings_cache]
  | none =>
    simp only [ensure_initialized, cachedLoadVS, hV, alookup_nil, load_vectorstore, hfd,
      cachedLoadEmb, hE, initialize_vectorstore_st, alookup_ainsert_self,
      readyFromDisk, load_embeddings_cache, if_pos, eq_self_iff_true, if_true]

theorem runQuery_cold (pf : MLSettings → List String → List Vec) (df : List Row)
    (tsearch : TextSearch) (vsearch : VecSearch) (st0 : MLState)
    (hE : st0.memoEmb = []) (hV : st0.memoVS = []) (hEng : st0.engine = none)
    (q : Query) :
    (runQuery pf df tsearch vsearch st0 q).1 =
      answerFrom tsearch vsearch (readyFromDisk pf df st0.settings st0.disk).1
        (readyFromDisk pf df st0.settings st0.disk).2 q ∧
      (runQuery pf df tsearch vsearch st0 q).2.1.engine =
        some ⟨some (readyFromDisk pf df st0.settings st0.disk).1,
              some (readyFromDisk pf df st0.settings st0.disk).2⟩ := by
  have hcold := ensure_cold pf df { st0 with engine := some (⟨none, none⟩ : Engine) } hE hV
  cases q with
  | byText t k =>
    constructor
    · simp only [runQuery, recommend_by_text_st, get_engine, hEng, hcold, answerFrom,
        Option.getD_some]
    · simp only [runQuery, recommend_by_text_st, get_engine, hEng, hcold]
  | byId bid k =>
    constructor
    · simp only [runQuery, recommend_by_book_id_st, get_engine, hEng, hcold, answerFrom,
        Option.getD_some]
    · simp only [runQuery, recommend_by_book_id_st, get_engine, hEng, hcold]

/-- C2: after the provider identity (provider kind, local-model name, cache
directory) is switched, every subsequent `recommend_by_text` and
`recommend_by_book_id` query is answered from the vectorstore and
embeddings cache that `readyFromDisk` derives from the new identity's disk
slots alone — the switch empties both `st.cache_resource` tables and drops
the engine, so no query is served by a vectorstore or cache loaded under
the previous identity, whatever was in memory before the switch. -/
theorem C2_provider_switch_isolation (pf : MLSettings → List String → List Vec)
    (df : List Row) (tsearch : TextSearch) (vsearch : VecSearch)
    (st : MLState) (prov lm dir : String) (qs : List Query) :
    (runQueries pf df tsearch vsearch (switch_identity st prov lm dir) qs).1 =
      qs.map (answerFrom tsearch vsearch
        (readyFromDisk pf df
          { st.settings with provider := prov, localModel := lm, cacheDirName := dir }
          st.disk).1
        (readyFromDisk pf df
          { st.settings with provider := prov, localModel := lm, cacheDirName := dir }
          st.disk).2) := by
  cases qs with
  | nil => rfl
  | cons q rest =>
    have hq := runQuery_cold pf df tsearch vsearch (switch_identity st prov lm dir)
      rfl rfl rfl q
    have hrest := runQueries_ready pf df tsearch vsearch _ _ rest _ hq.2
    simp only [runQueries, hq.1, hrest, List.map_cons]
    simp [switch_identity]

end Spec2Proof
